import Mathlib

/-!
Verification of the tile-compositing core in fab/image.py.

The Python class Image wraps a 2-D numpy array of unsigned 16-bit samples
together with six physical bounds.  We embed it shallowly:

* grids are lists of rows of natural numbers (each value < 2^16 by
  construction of the operations that produce them);
* the numpy buffer heap is an explicit store (a list of grids); an Image
  header holds an index into the store, mirroring Python reference
  semantics so that aliasing created by Image.copy is observable;
* machine floats are modelled as rationals; bounds are rationals (the
  claims under study all assume the six bounds are set, so the Python
  None state is outside every statement proved here);
* Python ZeroDivisionError is modelled with Except Unit: raising
  divisions return Except.error.
-/

namespace Fab

instance {ε α : Type} [DecidableEq ε] [DecidableEq α] : DecidableEq (Except ε α) := fun a b =>
  match a, b with
  | Except.error e, Except.error f => decidable_of_iff (e = f) (by simp)
  | Except.error _, Except.ok _ => isFalse (fun h => by cases h)
  | Except.ok _, Except.error _ => isFalse (fun h => by cases h)
  | Except.ok a, Except.ok b => decidable_of_iff (a = b) (by simp)

/-- Truncation toward zero, the behaviour of the Python int() builtin on
a float or rational value. -/
def pyint (q : ℚ) : ℤ :=
  if q < 0 then -(Int.floor (-q)) else Int.floor q

/-- Cast of a rational sample to an unsigned 16-bit value: truncate
toward zero, then wrap modulo 2^16 (numpy output=np.uint16 casting). -/
def u16 (q : ℚ) : ℕ :=
  ((pyint q) % 65536).toNat

/-- Python division: raises ZeroDivisionError on a zero denominator,
modelled as Except.error. -/
def pydiv (a b : ℚ) : Except Unit ℚ :=
  if b = 0 then Except.error () else Except.ok (a / b)

/-- A 2-D grid of samples, row major, as produced by numpy arrays. -/
abbrev Grid := List (List ℕ)

def gridRows (g : Grid) : ℕ := g.length

def gridCols (g : Grid) : ℕ := (g.headD []).length

/-- Shape of a 2-D array, as numpy reports it for the rectangular arrays
the program manipulates. -/
def gridShape (g : Grid) : ℕ × ℕ := (gridRows g, gridCols g)

/-- Effective index of a Python slice endpoint into a sequence of the
given length: negative endpoints count from the end, and endpoints are
clamped into the valid range. -/
def sliceIdx (len : ℕ) (i : ℤ) : ℕ :=
  if i < 0 then ((len : ℤ) + i).toNat else min len i.toNat

/-- Python slice l[i:] with full endpoint semantics. -/
def pySliceFrom (i : ℤ) (l : List α) : List α :=
  l.drop (sliceIdx l.length i)

/-- Python slice l[:i] with full endpoint semantics. -/
def pySliceTo (i : ℤ) (l : List α) : List α :=
  l.take (sliceIdx l.length i)

/-- Python slice l[a:b] with full endpoint semantics. -/
def pySlice (a b : ℤ) (l : List α) : List α :=
  (l.drop (sliceIdx l.length a)).take (sliceIdx l.length b - sliceIdx l.length a)

/-- Column slice g[:, i:] of a 2-D array. -/
def colsFrom (i : ℤ) (g : Grid) : Grid := g.map (fun r => pySliceFrom i r)

/-- Column slice g[:, :i] of a 2-D array. -/
def colsTo (i : ℤ) (g : Grid) : Grid := g.map (fun r => pySliceTo i r)

/-- Row slice g[i:, :] of a 2-D array. -/
def rowsFrom (i : ℤ) (g : Grid) : Grid := pySliceFrom i g

/-- Row slice g[:i, :] of a 2-D array. -/
def rowsTo (i : ℤ) (g : Grid) : Grid := pySliceTo i g

/-- The numpy buffer heap: grid number r is the buffer of the array
object whose reference is r. -/
abbrev Store := List Grid

/-- Reading the buffer an array reference points at. -/
def deref (st : Store) (r : ℕ) : Grid := st.getD r []

/-- In-place write of one cell of the buffer behind reference r, as a
numpy item assignment through any view of that buffer. -/
def writeCell (st : Store) (r j i v : ℕ) : Store :=
  st.set r ((deref st r).set j (((deref st r).getD j []).set i v))

/-- np.zeros((h, w), dtype=np.uint16). -/
def zerosGrid (w h : ℕ) : Grid := List.replicate h (List.replicate w 0)

/-- Header of a fab Image: an array reference into the store plus the
scalar fields.  Bounds are rationals; every claim treated here assumes
all six bounds are set, so the Python None state is not represented. -/
structure Image where
  ref : ℕ
  width : ℕ
  height : ℕ
  xmin : ℚ
  xmax : ℚ
  ymin : ℚ
  ymax : ℚ
  zmin : ℚ
  zmax : ℚ
deriving DecidableEq

/-- Image.__init__(w, h): allocate a fresh zero-filled h-by-w buffer.
The renderer sets the bounds later; the placeholder 0 stands for the
Python None, which no claim proved here observes. -/
def Image.init (st : Store) (w h : ℕ) : Store × Image :=
  (st ++ [zerosGrid w h],
   { ref := st.length, width := w, height := h,
     xmin := 0, xmax := 0, ymin := 0, ymax := 0, zmin := 0, zmax := 0 })

/-- The Region descriptor (external collaborator): cell counts and the
coordinate boundary sequences. -/
structure Region where
  ni : ℕ
  nj : ℕ
  nk : ℕ
  X : List ℚ
  Y : List ℚ
  Z : List ℚ

/-- Image.from_region: construct an image sized (ni, nj) and read the
first and last coordinate of each axis, scaled by mm_per_unit. -/
def Image.from_region (st : Store) (region : Region) (mm_per_unit : ℚ) :
    Store × Image :=
  let p := Image.init st region.ni region.nj
  (p.1,
   { p.2 with
     xmin := region.X.getD 0 0 * mm_per_unit,
     xmax := region.X.getD region.ni 0 * mm_per_unit,
     ymin := region.Y.getD 0 0 * mm_per_unit,
     ymax := region.Y.getD region.nj 0 * mm_per_unit,
     zmin := region.Z.getD 0 0 * mm_per_unit,
     zmax := region.Z.getD region.nk 0 * mm_per_unit })

/-- Image.copy: a shallow copy.  A fresh Image is allocated (its zero
buffer becomes garbage immediately), then its array field is reassigned
to the original array reference and the six bounds are copied over. -/
def Image.copy (st : Store) (self : Image) : Store × Image :=
  let p := Image.init st self.width self.height
  (p.1,
   { p.2 with
     ref := self.ref
     xmin := self.xmin, ymin := self.ymin, zmin := self.zmin
     xmax := self.xmax, ymax := self.ymax, zmax := self.zmax })

/-- Image.pixels: the row-pointer export.  List grids are always
contiguous, so the ascontiguousarray branch never fires and the tile is
returned untouched together with the row buffer: with flip_y the rows
appear in storage order, otherwise bottom row first. -/
def Image.pixels (st : Store) (self : Image) (flip_y : Bool) :
    Store × Image × List (List ℕ) :=
  let rows := (List.range self.height).map (fun j => (deref st self.ref).getD j [])
  (st, self, if flip_y then rows else rows.reverse)

/-- Lines 77-81: the z height-map scale, with the flat-target fallback
z_scale = 1 when the denominator is zero (the caught
ZeroDivisionError). -/
def z_scale (source target : Image) : ℚ :=
  match pydiv (source.zmax - target.zmin) (target.zmax - target.zmin) with
  | Except.ok q => q
  | Except.error _ => 1

/-- Lines 83-87: the pair of pixel-density ratios (row scale from
heights and y bounds, column scale from widths and x bounds).  The six
divisions are evaluated in Python order; the first zero denominator
raises an uncaught ZeroDivisionError, written here as the chain of
guards, one per division, each testing exactly that division
denominator. -/
def pixel_scale (source target : Image) : Except Unit (ℚ × ℚ) :=
  if target.ymax - target.ymin = 0 then Except.error ()
  else if source.ymax - source.ymin = 0 then Except.error ()
  else if (source.height : ℚ) / (source.ymax - source.ymin) = 0 then Except.error ()
  else if target.xmax - target.xmin = 0 then Except.error ()
  else if source.xmax - source.xmin = 0 then Except.error ()
  else if (source.width : ℚ) / (source.xmax - source.xmin) = 0 then Except.error ()
  else Except.ok
    (((target.height : ℚ) / (target.ymax - target.ymin)) /
       ((source.height : ℚ) / (source.ymax - source.ymin)),
     ((target.width : ℚ) / (target.xmax - target.xmin)) /
       ((source.width : ℚ) / (source.xmax - source.xmin)))

/-- Modelled from the spec: output length of one axis under
scipy.ndimage.interpolation.zoom, the rounded product of input length
and zoom factor (scipy itself is an external library, absent from the
repository source). -/
def zoomSize (n : ℕ) (r : ℚ) : ℕ :=
  (Int.floor ((n : ℚ) * r + 1/2)).toNat

/-- Modelled from the spec: the order-0 (nearest neighbour) source index
for output index j under scale r, the truncated j / r with index
clamping into the valid range. -/
def zoomIdx (n : ℕ) (j : ℕ) (r : ℚ) : ℕ :=
  min (n - 1) (Int.floor ((j : ℚ) / r)).toNat

/-- Modelled from the spec: scipy.ndimage.interpolation.zoom of the
grid g (already row-reversed by the caller) with per-axis factors
(rs, cs), order 0 and uint16 output; the z rescale zs multiplies the
input samples, so each output cell is the cast of zs times the
nearest-neighbour input sample. -/
def zoomGrid (g : Grid) (zs rs cs : ℚ) : Grid :=
  (List.range (zoomSize (gridRows g) rs)).map (fun j =>
    (List.range (zoomSize (gridCols g) cs)).map (fun i =>
      u16 (zs * ((g.getD (zoomIdx (gridRows g) j rs) []).getD (zoomIdx (gridCols g) i cs) 0 : ℕ))))

/-- Lines 101-105: left trim.  The fractional column index is computed
from the width field and the x bounds before xmin is overwritten, then
the columns left of it are dropped.  The width and height fields are
not touched. -/
def trim_xmin (target : Image) (s : Image × Grid) : Except Unit (Image × Grid) :=
  if target.xmin > s.1.xmin then
    if s.1.xmax - s.1.xmin = 0 then Except.error ()
    else
      let imin := pyint ((s.1.width : ℚ) * (target.xmin - s.1.xmin) / (s.1.xmax - s.1.xmin))
      Except.ok ({ s.1 with xmin := target.xmin }, colsFrom imin s.2)
  else Except.ok s

/-- Lines 107-111: right trim.  The computed index is nonpositive in the
firing case, so the slice g[:, :imax] drops trailing columns. -/
def trim_xmax (target : Image) (s : Image × Grid) : Except Unit (Image × Grid) :=
  if target.xmax < s.1.xmax then
    if s.1.xmax - s.1.xmin = 0 then Except.error ()
    else
      let imax := pyint ((s.1.width : ℚ) * (target.xmax - s.1.xmax) / (s.1.xmax - s.1.xmin))
      Except.ok ({ s.1 with xmax := target.xmax }, colsTo imax s.2)
  else Except.ok s

/-- Lines 113-117: bottom trim.  Note the code scales the y fraction by
the width field, not the height field. -/
def trim_ymin (target : Image) (s : Image × Grid) : Except Unit (Image × Grid) :=
  if target.ymin > s.1.ymin then
    if s.1.ymax - s.1.ymin = 0 then Except.error ()
    else
      let jmin := pyint ((s.1.width : ℚ) * (target.ymin - s.1.ymin) / (s.1.ymax - s.1.ymin))
      Except.ok ({ s.1 with ymin := target.ymin }, rowsFrom jmin s.2)
  else Except.ok s

/-- Lines 119-123: top trim, again scaled by the width field. -/
def trim_ymax (target : Image) (s : Image × Grid) : Except Unit (Image × Grid) :=
  if target.ymax < s.1.ymax then
    if s.1.ymax - s.1.ymin = 0 then Except.error ()
    else
      let jmax := pyint ((s.1.width : ℚ) * (target.ymax - s.1.ymax) / (s.1.ymax - s.1.ymin))
      Except.ok ({ s.1 with ymax := target.ymax }, rowsTo jmax s.2)
  else Except.ok s

/-- Lines 101-126: the four edge trims in source order (xmin, xmax,
ymin, ymax) followed by the single refresh of the height and width
fields from the grid shape at line 126. -/
def trim_phase (target : Image) (s : Image × Grid) : Except Unit (Image × Grid) :=
  match trim_xmin target s with
  | Except.error e => Except.error e
  | Except.ok s1 =>
    match trim_xmax target s1 with
    | Except.error e => Except.error e
    | Except.ok s2 =>
      match trim_ymin target s2 with
      | Except.error e => Except.error e
      | Except.ok s3 =>
        match trim_ymax target s3 with
        | Except.error e => Except.error e
        | Except.ok s4 =>
            Except.ok ({ s4.1 with height := gridRows s4.2, width := gridCols s4.2 }, s4.2)

/-- Lines 134-135: the sub-window target.array[j:j+h, i:i+w]. -/
def subWindow (j i : ℤ) (h w : ℕ) (tg : Grid) : Grid :=
  (pySlice j (j + (h : ℤ)) tg).map (fun r => pySlice i (i + (w : ℤ)) r)

/-- Writing a patch over a list starting at effective slice position s:
the prefix and the suffix are kept, the overlapping middle is combined
cell by cell.  This is the shape of a numpy masked slice assignment. -/
def overlay (f : α → α → α) (s : ℕ) (patch ys : List α) : List α :=
  ys.take s ++ List.zipWith f patch (ys.drop s) ++ ys.drop (s + patch.length)

/-- One row of the merge at lines 142-145: inside the column window a
source sample overwrites the target sample exactly when it is strictly
greater. -/
def mergeRow (i : ℤ) (srow trow : List ℕ) : List ℕ :=
  overlay (fun a b => if a > b then a else b) (sliceIdx trow.length i) srow trow

/-- Lines 142-145: np.copyto(subtarget, source.array,
where=source.array > subtarget), writing through the sub-window view
into the target buffer. -/
def mergeGrid (j i : ℤ) (sg tg : Grid) : Grid :=
  overlay (mergeRow i) (sliceIdx tg.length j) sg tg

/-- Lines 93-95: the resampled grid, the row-reversed source buffer
scaled by z_scale and zoomed by the two pixel-density ratios. -/
def zoomedOf (st : Store) (source target : Image) (ps0 ps1 : ℚ) : Grid :=
  zoomGrid (deref st source.ref).reverse (z_scale source target) ps0 ps1

/-- Lines 92-98: the header of the shallow source copy after its array
has been reassigned to the resampled grid (stored at index
st.length + 1, right after the orphan buffer of Image.__init__) and its
height and width have been refreshed from the new shape. -/
def copyHdr (st : Store) (source target : Image) (ps0 ps1 : ℚ) : Image :=
  { source with
    ref := st.length + 1
    height := gridRows (zoomedOf st source target ps0 ps1)
    width := gridCols (zoomedOf st source target ps0 ps1) }

/-- Lines 128-129: the truncated column offset of the trimmed source
inside the target. -/
def place_i (target c2 : Image) : ℤ :=
  pyint ((target.width : ℚ) * (c2.xmin - target.xmin) / (target.xmax - target.xmin))

/-- Lines 131-132: the truncated row offset of the trimmed source
inside the target. -/
def place_j (target c2 : Image) : ℤ :=
  pyint ((target.height : ℚ) * (c2.ymin - target.ymin) / (target.ymax - target.ymin))

/-- Lines 134-140: extract the sub-window of the target grid at the
placement offset with the trimmed shape; when rounding makes the
sub-window smaller, shrink the source grid to fit it. -/
def clip_fit (tg : Grid) (j i : ℤ) (g2 : Grid) : Grid :=
  let sub := subWindow j i (gridRows g2) (gridCols g2) tg
  if gridShape sub ≠ gridShape g2
  then (g2.take (gridRows sub)).map (fun r => r.take (gridCols sub))
  else g2

/-- Lines 92-147 after the zero-scale guard: copy the source header
(allocating the orphan buffer of Image.__init__), resample the reversed
source grid, trim, compute the placement offsets, clip to the available
sub-window and merge into the target buffer. -/
def blit_main (st : Store) (source target : Image) (ps0 ps1 : ℚ) :
    Store × Except Unit (Option Image) :=
  let st1 := st ++ [zerosGrid source.width source.height, zoomedOf st source target ps0 ps1]
  match trim_phase target (copyHdr st source target ps0 ps1, zoomedOf st source target ps0 ps1) with
  | Except.error _ => (st1, Except.error ())
  | Except.ok (c2, g2) =>
      (st1.set target.ref
        (mergeGrid (place_j target c2) (place_i target c2)
          (clip_fit (deref st target.ref) (place_j target c2) (place_i target c2) g2)
          (deref st target.ref)),
       Except.ok (some target))

/-- Image.blit_onto(source, target), lines 70-147.  The result is the
final store paired with the outcome: Except.error for an uncaught
ZeroDivisionError, Except.ok none for the bare return of the zero-scale
guard at line 89, and Except.ok (some target) for the normal return at
line 147.  The placement divisions at lines 128-132 cannot divide by
zero once pixel_scale has succeeded, so they are written with plain
rational division. -/
def blit_onto (st : Store) (source target : Image) :
    Store × Except Unit (Option Image) :=
  match pixel_scale source target with
  | Except.error _ => (st, Except.error ())
  | Except.ok (ps0, ps1) =>
      if ps0 = 0 ∨ ps1 = 0 then (st, Except.ok none)
      else blit_main st source target ps0 ps1

/-- Projection of the merge inputs of a successful blit_onto run: the
placed (clipped, trimmed, resampled) source grid together with the
effective row and column start of the sub-window in the target grid.
Off the success path it returns the empty placement. -/
def blit_parts_main (st : Store) (source target : Image) (ps0 ps1 : ℚ) :
    Grid × ℕ × ℕ :=
  match trim_phase target (copyHdr st source target ps0 ps1, zoomedOf st source target ps0 ps1) with
  | Except.error _ => ([], 0, 0)
  | Except.ok (c2, g2) =>
      (clip_fit (deref st target.ref) (place_j target c2) (place_i target c2) g2,
       sliceIdx (gridRows (deref st target.ref)) (place_j target c2),
       sliceIdx target.width (place_i target c2))

/-- See blit_parts_main. -/
def blit_parts (st : Store) (source target : Image) : Grid × ℕ × ℕ :=
  match pixel_scale source target with
  | Except.error _ => ([], 0, 0)
  | Except.ok (ps0, ps1) =>
      if ps0 = 0 ∨ ps1 = 0 then ([], 0, 0)
      else blit_parts_main st source target ps0 ps1

/-- One cell of the grid a tile references. -/
def cell (st : Store) (img : Image) (j i : ℕ) : ℕ :=
  ((deref st img.ref).getD j []).getD i 0

/-- The data-model shape invariant: the referenced grid has height rows,
each of width cells. -/
def InvShape (st : Store) (img : Image) : Prop :=
  gridRows (deref st img.ref) = img.height ∧
    ∀ r ∈ deref st img.ref, r.length = img.width

instance (st : Store) (img : Image) : Decidable (InvShape st img) := by
  unfold InvShape
  infer_instance

/-! Concrete scenarios used by witnesses and counterexamples. -/

/-- A 2 by 2 target with one nonzero sample, density 1 px per mm. -/
def tC1w : Image :=
  { ref := 0, width := 2, height := 2,
    xmin := 0, xmax := 2, ymin := 0, ymax := 2, zmin := 0, zmax := 4 }

/-- A 1 by 1 source of value 10, with half the z range of the target. -/
def sC1w : Image :=
  { ref := 1, width := 1, height := 1,
    xmin := 0, xmax := 1, ymin := 0, ymax := 1, zmin := 0, zmax := 2 }

def stC1w : Store := [[[7, 0], [0, 0]], [[10]]]

/-- The 4 by 4 zero target of the concrete scenario of the spec. -/
def tC5 : Image :=
  { ref := 0, width := 4, height := 4,
    xmin := 0, xmax := 4, ymin := 0, ymax := 4, zmin := 0, zmax := 10 }

/-- The 2 by 2 source filled with 1000 of the concrete scenario. -/
def sC5 : Image :=
  { ref := 1, width := 2, height := 2,
    xmin := 1, xmax := 3, ymin := 1, ymax := 3, zmin := 5, zmax := 15 }

def stC5 : Store := [zerosGrid 4 4, [[1000, 1000], [1000, 1000]]]

/-- A target of height 0: its row pixel-density ratio is exactly 0. -/
def tC6 : Image :=
  { ref := 0, width := 1, height := 0,
    xmin := 0, xmax := 1, ymin := 0, ymax := 1, zmin := 0, zmax := 1 }

def sC6 : Image :=
  { ref := 1, width := 1, height := 1,
    xmin := 0, xmax := 1, ymin := 0, ymax := 1, zmin := 0, zmax := 1 }

def stC6 : Store := [[], [[0]]]

/-- An 8-row, 4-column tile state entering the trim phase. -/
def cC3 : Image :=
  { ref := 0, width := 4, height := 8,
    xmin := 0, xmax := 4, ymin := 0, ymax := 8, zmin := 0, zmax := 1 }

/-- Its grid: row j is four copies of j. -/
def gC3 : Grid := (List.range 8).map (fun j => List.replicate 4 j)

/-- A target whose ymin cuts the source y range in half. -/
def tC3 : Image :=
  { ref := 0, width := 4, height := 4,
    xmin := 0, xmax := 4, ymin := 4, ymax := 8, zmin := 0, zmax := 1 }

/-- A 1 by 4 tile state entering the trim phase. -/
def cC4 : Image :=
  { ref := 0, width := 4, height := 1,
    xmin := 0, xmax := 4, ymin := 0, ymax := 1, zmin := 0, zmax := 1 }

def gC4 : Grid := [[0, 1, 2, 3]]

/-- A target whose xmin cuts off the left half of the source. -/
def tC4 : Image :=
  { ref := 0, width := 4, height := 1,
    xmin := 2, xmax := 4, ymin := 0, ymax := 1, zmin := 0, zmax := 1 }

/-- The result state of the full trim phase at the C4 input. -/
def tpC4res : Image × Grid :=
  ({ cC4 with xmin := 2, width := 2, height := 1 }, [[2, 3]])

/-- A 2-row target whose grid is not flip-symmetric. -/
def tC10 : Image :=
  { ref := 0, width := 1, height := 2,
    xmin := 0, xmax := 1, ymin := 0, ymax := 2, zmin := 0, zmax := 1 }

def stC10 : Store := [[[0], [5]]]

/-- Distinct source and target buffers for the frame-property witness. -/
def tC10w : Image :=
  { ref := 0, width := 1, height := 1,
    xmin := 0, xmax := 1, ymin := 0, ymax := 1, zmin := 0, zmax := 1 }

def sC10w : Image :=
  { ref := 1, width := 1, height := 1,
    xmin := 0, xmax := 1, ymin := 0, ymax := 1, zmin := 0, zmax := 1 }

def stC10w : Store := [[[1]], [[2]]]

/-- Source and target for the resampling witness: a 2 by 2 source at
density 1, a 2 by 2 target at the same density, half the z range. -/
def tC2w : Image :=
  { ref := 0, width := 2, height := 2,
    xmin := 0, xmax := 2, ymin := 0, ymax := 2, zmin := 0, zmax := 2 }

def sC2w : Image :=
  { ref := 1, width := 2, height := 2,
    xmin := 0, xmax := 2, ymin := 0, ymax := 2, zmin := 0, zmax := 1 }

def stC2w : Store := [zerosGrid 2 2, [[2, 4], [6, 8]]]

/-- Store and tile for the copy-aliasing witness. -/
def sC9w : Image :=
  { ref := 0, width := 2, height := 1,
    xmin := 0, xmax := 2, ymin := 0, ymax := 1, zmin := 0, zmax := 1 }

def stC9w : Store := [[[3, 4]]]

/-! Auxiliary list lemmas. -/

theorem getD_take {α : Type} (l : List α) (s n : ℕ) (d : α) (h : n < s) :
    (l.take s).getD n d = l.getD n d := by
  simp [List.getD_eq_getElem?_getD, List.getElem?_take, h]

theorem getD_drop {α : Type} (l : List α) (s n : ℕ) (d : α) :
    (l.drop s).getD n d = l.getD (s + n) d := by
  simp [List.getD_eq_getElem?_getD, List.getElem?_drop]

theorem getD_set_ne {α : Type} (l : List α) (r r' : ℕ) (x : α) (d : α) (h : r ≠ r') :
    (l.set r x).getD r' d = l.getD r' d := by
  simp [List.getD_eq_getElem?_getD, List.getElem?_set_ne h]

theorem getD_set_self {α : Type} (l : List α) (r : ℕ) (x : α) (d : α) (h : r < l.length) :
    (l.set r x).getD r d = x := by
  simp [List.getD_eq_getElem?_getD, List.getElem?_set_self h]

theorem getD_zipWith {α β γ : Type} (f : α → β → γ) (as : List α) (bs : List β)
    (n : ℕ) (da : α) (db : β) (dc : γ) (ha : n < as.length) (hb : n < bs.length) :
    (List.zipWith f as bs).getD n dc = f (as.getD n da) (bs.getD n db) := by
  induction as generalizing bs n with
  | nil => simp at ha
  | cons a as ih =>
      cases bs with
      | nil => simp at hb
      | cons b bs =>
          cases n with
          | zero => simp
          | succ n =>
              simp only [List.zipWith_cons_cons, List.getD_cons_succ]
              exact ih bs n (by simpa using ha) (by simpa using hb)

theorem getD_range_map {α : Type} (f : ℕ → α) (n j : ℕ) (d : α) (h : j < n) :
    ((List.range n).map f).getD j d = f j := by
  have hj : j < ((List.range n).map f).length := by simpa using h
  rw [List.getD_eq_getElem _ _ hj, List.getElem_map]
  simp

theorem getD_mem {α : Type} (l : List α) (n : ℕ) (d : α) (h : n < l.length) :
    l.getD n d ∈ l := by
  rw [List.getD_eq_getElem _ _ h]
  exact List.getElem_mem h

theorem mem_zipWith {α β γ : Type} {f : α → β → γ} {as : List α} {bs : List β} {c : γ}
    (h : c ∈ List.zipWith f as bs) : ∃ a ∈ as, ∃ b ∈ bs, c = f a b := by
  induction as generalizing bs with
  | nil => simp at h
  | cons a as ih =>
      cases bs with
      | nil => simp at h
      | cons b bs =>
          simp only [List.zipWith_cons_cons, List.mem_cons] at h
          rcases h with h | h
          · exact ⟨a, by simp, b, by simp, h⟩
          · obtain ⟨a', ha', b', hb', hc⟩ := ih h
            exact ⟨a', by simp [ha'], b', by simp [hb'], hc⟩

theorem sliceIdx_le {len : ℕ} {i : ℤ} : sliceIdx len i ≤ len := by
  unfold sliceIdx
  split
  · omega
  · omega

/-! Characterisation of overlay, the shape of the masked in-place
assignment used by the merge. -/

theorem overlay_length {α : Type} (f : α → α → α) (s : ℕ) (patch ys : List α)
    (hs : s ≤ ys.length) : (overlay f s patch ys).length = ys.length := by
  simp only [overlay, List.length_append, List.length_take, List.length_zipWith,
    List.length_drop]
  omega

theorem overlay_getD {α : Type} (f : α → α → α) (s : ℕ) (patch ys : List α) (d : α)
    (j : ℕ) (hs : s ≤ ys.length) (hj : j < ys.length) :
    (overlay f s patch ys).getD j d =
      if s ≤ j ∧ j < s + patch.length then f (patch.getD (j - s) d) (ys.getD j d)
      else ys.getD j d := by
  have hlen_take : (ys.take s).length = s := by simp; omega
  have hlen_zip : (List.zipWith f patch (ys.drop s)).length
      = min patch.length (ys.length - s) := by simp
  unfold overlay
  rw [List.append_assoc]
  by_cases h1 : j < s
  · rw [List.getD_append _ _ _ _ (by omega), getD_take _ _ _ _ h1, if_neg (by omega)]
  · rw [List.getD_append_right _ _ _ _ (by omega), hlen_take]
    by_cases h2 : j < s + patch.length
    · have hzj : j - s < (List.zipWith f patch (ys.drop s)).length := by
        rw [hlen_zip]; omega
      rw [List.getD_append _ _ _ _ hzj,
        getD_zipWith f patch (ys.drop s) (j - s) d d d (by omega)
          (by rw [List.length_drop]; omega),
        getD_drop, if_pos (by omega)]
      have hidx : s + (j - s) = j := by omega
      rw [hidx]
    · rw [if_neg (by omega), List.getD_append_right _ _ _ _ (by rw [hlen_zip]; omega),
        hlen_zip, getD_drop]
      have hidx : s + patch.length + (j - s - min patch.length (ys.length - s)) = j := by
        omega
      rw [hidx]

theorem mergeRow_length (i : ℤ) (srow trow : List ℕ) :
    (mergeRow i srow trow).length = trow.length :=
  overlay_length _ _ _ _ sliceIdx_le

theorem mergeGrid_length (j i : ℤ) (sg tg : Grid) :
    (mergeGrid j i sg tg).length = tg.length :=
  overlay_length _ _ _ _ sliceIdx_le

theorem mergeGrid_getD (j i : ℤ) (sg tg : Grid) (k : ℕ) (hk : k < tg.length) :
    (mergeGrid j i sg tg).getD k [] =
      if sliceIdx tg.length j ≤ k ∧ k < sliceIdx tg.length j + sg.length
      then mergeRow i (sg.getD (k - sliceIdx tg.length j) []) (tg.getD k [])
      else tg.getD k [] :=
  overlay_getD _ _ _ _ _ _ sliceIdx_le hk

theorem mergeRow_getD (i : ℤ) (srow trow : List ℕ) (k : ℕ) (hk : k < trow.length) :
    (mergeRow i srow trow).getD k 0 =
      if sliceIdx trow.length i ≤ k ∧ k < sliceIdx trow.length i + srow.length
      then (if srow.getD (k - sliceIdx trow.length i) 0 > trow.getD k 0
            then srow.getD (k - sliceIdx trow.length i) 0 else trow.getD k 0)
      else trow.getD k 0 :=
  overlay_getD _ _ _ _ _ _ sliceIdx_le hk

/-! Rectangularity: numpy 2-D arrays always have rows of equal length;
the list model keeps track of it through the pipeline. -/

def Rect (g : Grid) (w : ℕ) : Prop := ∀ r ∈ g, r.length = w

theorem rect_gridCols {g : Grid} {w : ℕ} (h : Rect g w) (hne : g ≠ []) :
    gridCols g = w := by
  cases g with
  | nil => exact absurd rfl hne
  | cons r rest => exact h r (by simp)

theorem rect_of_subset {g' g : Grid} {w : ℕ} (hs : g' ⊆ g) (h : Rect g w) :
    Rect g' w := fun r hr => h r (hs hr)

theorem rect_reverse {g : Grid} {w : ℕ} (h : Rect g w) : Rect g.reverse w :=
  rect_of_subset (fun _ hr => List.mem_reverse.mp hr) h

theorem rect_colsFrom (i : ℤ) {g : Grid} {w : ℕ} (h : Rect g w) :
    Rect (colsFrom i g) (w - sliceIdx w i) := by
  intro r hr
  simp only [colsFrom, List.mem_map] at hr
  obtain ⟨r0, hr0, rfl⟩ := hr
  simp [pySliceFrom, h r0 hr0]

theorem rect_colsTo (i : ℤ) {g : Grid} {w : ℕ} (h : Rect g w) :
    Rect (colsTo i g) (sliceIdx w i) := by
  intro r hr
  simp only [colsTo, List.mem_map] at hr
  obtain ⟨r0, hr0, rfl⟩ := hr
  simp only [pySliceTo, List.length_take, h r0 hr0]
  exact Nat.min_eq_left sliceIdx_le

theorem rect_rowsFrom (i : ℤ) {g : Grid} {w : ℕ} (h : Rect g w) :
    Rect (rowsFrom i g) w :=
  rect_of_subset (List.drop_subset _ _) h

theorem rect_rowsTo (i : ℤ) {g : Grid} {w : ℕ} (h : Rect g w) :
    Rect (rowsTo i g) w :=
  rect_of_subset (List.take_subset _ _) h

theorem rect_map_take (n : ℕ) {g : Grid} {w : ℕ} (h : Rect g w) :
    Rect (g.map (fun r => r.take n)) (min n w) := by
  intro r hr
  simp only [List.mem_map] at hr
  obtain ⟨r0, hr0, rfl⟩ := hr
  simp [h r0 hr0]

theorem rect_zoomGrid (g : Grid) (zs rs cs : ℚ) :
    Rect (zoomGrid g zs rs cs) (zoomSize (gridCols g) cs) := by
  intro r hr
  simp only [zoomGrid, List.mem_map] at hr
  obtain ⟨j, _, rfl⟩ := hr
  simp

/-! Success-path lemmas for the trim phase. -/

theorem trim_xmin_run (t c : Image) (g : Grid) (hx : c.xmax - c.xmin ≠ 0) :
    ∃ c1 g1, trim_xmin t (c, g) = Except.ok (c1, g1) ∧
      c1.xmax = c.xmax ∧ c1.ymin = c.ymin ∧ c1.ymax = c.ymax ∧
      (c1.xmin = t.xmin ∨ c1.xmin = c.xmin) ∧
      (∀ w, Rect g w → ∃ w1, Rect g1 w1) := by
  unfold trim_xmin
  by_cases hc : t.xmin > c.xmin
  · rw [if_pos hc, if_neg hx]
    exact ⟨_, _, rfl, rfl, rfl, rfl, Or.inl rfl,
      fun w hw => ⟨_, rect_colsFrom _ hw⟩⟩
  · rw [if_neg hc]
    exact ⟨c, g, rfl, rfl, rfl, rfl, Or.inr rfl, fun w hw => ⟨w, hw⟩⟩

theorem trim_xmax_run (t c : Image) (g : Grid)
    (hx : t.xmax < c.xmax → c.xmax - c.xmin ≠ 0) :
    ∃ c1 g1, trim_xmax t (c, g) = Except.ok (c1, g1) ∧
      c1.xmin = c.xmin ∧ c1.ymin = c.ymin ∧ c1.ymax = c.ymax ∧
      (∀ w, Rect g w → ∃ w1, Rect g1 w1) := by
  unfold trim_xmax
  by_cases hc : t.xmax < c.xmax
  · rw [if_pos hc, if_neg (hx hc)]
    exact ⟨_, _, rfl, rfl, rfl, rfl, fun w hw => ⟨_, rect_colsTo _ hw⟩⟩
  · rw [if_neg hc]
    exact ⟨c, g, rfl, rfl, rfl, rfl, fun w hw => ⟨w, hw⟩⟩

theorem trim_ymin_run (t c : Image) (g : Grid) (hy : c.ymax - c.ymin ≠ 0) :
    ∃ c1 g1, trim_ymin t (c, g) = Except.ok (c1, g1) ∧
      c1.ymax = c.ymax ∧ (c1.ymin = t.ymin ∨ c1.ymin = c.ymin) ∧
      (∀ w, Rect g w → Rect g1 w) := by
  unfold trim_ymin
  by_cases hc : t.ymin > c.ymin
  · rw [if_pos hc, if_neg hy]
    exact ⟨_, _, rfl, rfl, Or.inl rfl, fun w hw => rect_rowsFrom _ hw⟩
  · rw [if_neg hc]
    exact ⟨c, g, rfl, rfl, Or.inr rfl, fun w hw => hw⟩

theorem trim_ymax_run (t c : Image) (g : Grid)
    (hy : t.ymax < c.ymax → c.ymax - c.ymin ≠ 0) :
    ∃ c1 g1, trim_ymax t (c, g) = Except.ok (c1, g1) ∧
      (∀ w, Rect g w → Rect g1 w) := by
  unfold trim_ymax
  by_cases hc : t.ymax < c.ymax
  · rw [if_pos hc, if_neg (hy hc)]
    exact ⟨_, _, rfl, fun w hw => rect_rowsTo _ hw⟩
  · rw [if_neg hc]
    exact ⟨c, g, rfl, fun w hw => hw⟩

/-- Under the data-model bound ordering of the target and nondegenerate
source bounds, the trim phase never divides by zero, and the trimmed
grid stays rectangular. -/
theorem trim_phase_ok (t c : Image) (g : Grid) (w : ℕ) (hrect : Rect g w)
    (hx : c.xmax - c.xmin ≠ 0) (hy : c.ymax - c.ymin ≠ 0)
    (htx : t.xmin < t.xmax) (hty : t.ymin < t.ymax) :
    ∃ c2 g2 w2, trim_phase t (c, g) = Except.ok (c2, g2) ∧ Rect g2 w2 := by
  obtain ⟨c1, g1, e1, hxmax1, hymin1, hymax1, hxmin1, hr1⟩ := trim_xmin_run t c g hx
  obtain ⟨w1, hw1⟩ := hr1 w hrect
  have hx2 : t.xmax < c1.xmax → c1.xmax - c1.xmin ≠ 0 := by
    intro hlt
    rw [hxmax1] at hlt ⊢
    rcases hxmin1 with h | h <;> rw [h]
    · have : t.xmin < c.xmax := lt_trans htx hlt
      intro hz
      have : t.xmin = c.xmax := by linarith
      linarith
    · exact hx
  obtain ⟨c2, g2, e2, hxmin2, hymin2, hymax2, hr2⟩ := trim_xmax_run t c1 g1 hx2
  obtain ⟨w2, hw2⟩ := hr2 w1 hw1
  have hy3 : c2.ymax - c2.ymin ≠ 0 := by rw [hymin2, hymax2, hymin1, hymax1]; exact hy
  obtain ⟨c3, g3, e3, hymax3, hymin3, hr3⟩ := trim_ymin_run t c2 g2 hy3
  have hw3 := hr3 w2 hw2
  have hy4 : t.ymax < c3.ymax → c3.ymax - c3.ymin ≠ 0 := by
    intro hlt
    rw [hymax3] at hlt ⊢
    rcases hymin3 with h | h <;> rw [h]
    · have : t.ymin < c2.ymax := lt_trans hty hlt
      intro hz
      have : t.ymin = c2.ymax := by linarith
      linarith
    · exact hy3
  obtain ⟨c4, g4, e4, hr4⟩ := trim_ymax_run t c3 g3 hy4
  have hw4 := hr4 w2 hw3
  refine ⟨{ c4 with height := gridRows g4, width := gridCols g4 }, g4, w2, ?_, hw4⟩
  unfold trim_phase
  simp only [e1, e2, e3, e4]

theorem if_gt_eq_max (a b : ℕ) : (if a > b then a else b) = max b a := by
  rcases le_or_lt a b with h | h
  · rw [if_neg (by omega), Nat.max_eq_left h]
  · rw [if_pos h, Nat.max_eq_right (le_of_lt h)]

theorem pixel_scale_ok_facts {s t : Image} {p : ℚ × ℚ}
    (h : pixel_scale s t = Except.ok p) :
    t.ymax - t.ymin ≠ 0 ∧ s.ymax - s.ymin ≠ 0 ∧ t.xmax - t.xmin ≠ 0 ∧
      s.xmax - s.xmin ≠ 0 := by
  unfold pixel_scale at h
  split_ifs at h with h1 h2 h3 h4 h5 h6
  exact ⟨h1, h2, h4, h5⟩

theorem rect_clip_fit (tg : Grid) (j i : ℤ) {g2 : Grid} {w2 : ℕ} (h : Rect g2 w2) :
    ∃ w3, Rect (clip_fit tg j i g2) w3 := by
  simp only [clip_fit]
  split
  · exact ⟨_, rect_map_take _ (rect_of_subset (List.take_subset _ _) h)⟩
  · exact ⟨w2, h⟩

/-- Claim C1: for a compositing call with all bounds set and nonzero
pixel-density ratios (under the data-model side conditions: ordered
target bounds, a valid target reference and the shape invariant),
blit_onto returns the target, every target cell inside the placed
sub-window ends with the maximum of its previous value and the placed
source value, and every target cell outside the placed sub-window is
unchanged. -/
theorem claim_C1_blit_max_merge (st : Store) (s t : Image) (ps0 ps1 : ℚ)
    (hps : pixel_scale s t = Except.ok (ps0, ps1))
    (h0 : ps0 ≠ 0) (h1 : ps1 ≠ 0)
    (htx : t.xmin < t.xmax) (hty : t.ymin < t.ymax)
    (ht : t.ref < st.length) (hinv : InvShape st t) :
    (blit_onto st s t).2 = Except.ok (some t) ∧
    ∀ j i, j < t.height → i < t.width →
      cell (blit_onto st s t).1 t j i =
        if (blit_parts st s t).2.1 ≤ j ∧
             j < (blit_parts st s t).2.1 + gridRows (blit_parts st s t).1 ∧
             (blit_parts st s t).2.2 ≤ i ∧
             i < (blit_parts st s t).2.2 + gridCols (blit_parts st s t).1
        then max (cell st t j i)
               (((blit_parts st s t).1.getD (j - (blit_parts st s t).2.1) []).getD
                  (i - (blit_parts st s t).2.2) 0)
        else cell st t j i := by
  obtain ⟨hty0, hsy0, htx0, hsx0⟩ := pixel_scale_ok_facts hps
  have hguard : ¬ (ps0 = 0 ∨ ps1 = 0) := by
    rintro (h | h)
    exacts [h0 h, h1 h]
  obtain ⟨c2, g2, w2, htp, hw2⟩ :=
    trim_phase_ok t (copyHdr st s t ps0 ps1) (zoomedOf st s t ps0 ps1)
      (zoomSize (gridCols (deref st s.ref).reverse) ps1)
      (rect_zoomGrid _ _ _ _) hsx0 hsy0 htx hty
  simp only [blit_onto, blit_parts, hps, hguard, if_false, blit_main,
    blit_parts_main, htp, cell, deref]
  refine ⟨trivial, ?_⟩
  intro j i hj hi
  have hlen2 : t.ref < (st ++ [zerosGrid s.width s.height,
      zoomedOf st s t ps0 ps1]).length := by
    rw [List.length_append]
    omega
  rw [getD_set_self _ _ _ _ hlen2]
  have hrows : (List.getD st t.ref []).length = t.height := hinv.1
  have hk : j < (List.getD st t.ref []).length := by omega
  rw [mergeGrid_getD _ _ _ _ j hk]
  by_cases hrow : sliceIdx (List.getD st t.ref []).length (place_j t c2) ≤ j ∧
      j < sliceIdx (List.getD st t.ref []).length (place_j t c2) +
        (clip_fit (List.getD st t.ref []) (place_j t c2) (place_i t c2) g2).length
  · rw [if_pos hrow]
    have htrow : (List.getD (List.getD st t.ref []) j []).length = t.width :=
      hinv.2 _ (getD_mem _ _ _ hk)
    have hi' : i < (List.getD (List.getD st t.ref []) j []).length := by omega
    rw [mergeRow_getD _ _ _ _ hi', htrow]
    obtain ⟨w3, hw3⟩ :=
      rect_clip_fit (List.getD st t.ref []) (place_j t c2) (place_i t c2) hw2
    have hG3ne : clip_fit (List.getD st t.ref []) (place_j t c2) (place_i t c2) g2 ≠ [] := by
      intro hnil
      rw [hnil] at hrow
      simp at hrow
      omega
    have hsrow_len :
        (List.getD (clip_fit (List.getD st t.ref []) (place_j t c2) (place_i t c2) g2)
          (j - sliceIdx (List.getD st t.ref []).length (place_j t c2)) []).length =
          gridCols (clip_fit (List.getD st t.ref []) (place_j t c2) (place_i t c2) g2) := by
      rw [hw3 _ (getD_mem _ _ _ (by omega)), rect_gridCols hw3 hG3ne]
    rw [hsrow_len]
    by_cases hcol : sliceIdx t.width (place_i t c2) ≤ i ∧
        i < sliceIdx t.width (place_i t c2) +
          gridCols (clip_fit (List.getD st t.ref []) (place_j t c2) (place_i t c2) g2)
    · rw [if_pos hcol]
      conv_rhs => rw [if_pos (⟨hrow.1, hrow.2, hcol.1, hcol.2⟩ :
        sliceIdx (gridRows (List.getD st t.ref [])) (place_j t c2) ≤ j ∧
          j < sliceIdx (gridRows (List.getD st t.ref [])) (place_j t c2) +
            gridRows (clip_fit (List.getD st t.ref []) (place_j t c2) (place_i t c2) g2) ∧
          sliceIdx t.width (place_i t c2) ≤ i ∧
          i < sliceIdx t.width (place_i t c2) +
            gridCols (clip_fit (List.getD st t.ref []) (place_j t c2) (place_i t c2) g2))]
      exact if_gt_eq_max _ _
    · rw [if_neg hcol, if_neg (fun hc => hcol ⟨hc.2.2.1, hc.2.2.2⟩)]
  · rw [if_neg hrow, if_neg (fun hc => hrow ⟨hc.1, hc.2.1⟩)]

/-- Witness for claim C1 at a concrete input. -/
theorem claim_C1_blit_max_merge_witness :
    (pixel_scale sC1w tC1w = Except.ok (1, 1) ∧ (1 : ℚ) ≠ 0 ∧
      tC1w.xmin < tC1w.xmax ∧ tC1w.ymin < tC1w.ymax ∧
      tC1w.ref < stC1w.length ∧ InvShape stC1w tC1w) ∧
    ((blit_onto stC1w sC1w tC1w).2 = Except.ok (some tC1w) ∧
      ∀ j i, j < tC1w.height → i < tC1w.width →
        cell (blit_onto stC1w sC1w tC1w).1 tC1w j i =
          if (blit_parts stC1w sC1w tC1w).2.1 ≤ j ∧
               j < (blit_parts stC1w sC1w tC1w).2.1 +
                 gridRows (blit_parts stC1w sC1w tC1w).1 ∧
               (blit_parts stC1w sC1w tC1w).2.2 ≤ i ∧
               i < (blit_parts stC1w sC1w tC1w).2.2 +
                 gridCols (blit_parts stC1w sC1w tC1w).1
          then max (cell stC1w tC1w j i)
                 (((blit_parts stC1w sC1w tC1w).1.getD
                    (j - (blit_parts stC1w sC1w tC1w).2.1) []).getD
                    (i - (blit_parts stC1w sC1w tC1w).2.2) 0)
          else cell stC1w tC1w j i) :=
  ⟨of_decide_eq_true (by with_unfolding_all rfl),
   claim_C1_blit_max_merge stC1w sC1w tC1w 1 1
     (of_decide_eq_true (by with_unfolding_all rfl))
     (of_decide_eq_true (by with_unfolding_all rfl))
     (of_decide_eq_true (by with_unfolding_all rfl))
     (of_decide_eq_true (by with_unfolding_all rfl))
     (of_decide_eq_true (by with_unfolding_all rfl))
     (of_decide_eq_true (by with_unfolding_all rfl))
     (of_decide_eq_true (by with_unfolding_all rfl))⟩

/-- Claim C7: the z scale equals (source.zmax - target.zmin) /
(target.zmax - target.zmin), and when the denominator is zero it falls
back to the constant 1 instead of raising. -/
theorem claim_C7_z_scale_fallback (s t : Image) :
    z_scale s t = if t.zmax - t.zmin = 0 then 1
      else (s.zmax - t.zmin) / (t.zmax - t.zmin) := by
  unfold z_scale pydiv
  split_ifs with h <;> rfl

/-- Claim C5: the concrete scenario of the spec: the 2 by 2 source of
value 1000 with z range 5..15 blitted onto the 4 by 4 zero target with
z range 0..10 fills the central window, rows and columns 1-2, with the
rescaled value 1500 and leaves every other cell 0. -/
theorem claim_C5_concrete_scenario :
    deref (blit_onto stC5 sC5 tC5).1 tC5.ref =
      [[0, 0, 0, 0], [0, 1500, 1500, 0], [0, 1500, 1500, 0], [0, 0, 0, 0]] ∧
    (blit_onto stC5 sC5 tC5).2 = Except.ok (some tC5) :=
  of_decide_eq_true (by with_unfolding_all rfl)

/-- Claim C6 counterexample: with a zero row pixel-density ratio the
guard leaves the store untouched and returns None (the bare return at
line 89), not the target. -/
theorem claim_C6_counterexample :
    blit_onto stC6 sC6 tC6 = (stC6, Except.ok none) ∧
    (blit_onto stC6 sC6 tC6).2 ≠ Except.ok (some tC6) :=
  of_decide_eq_true (by with_unfolding_all rfl)

/-- Claim C6 amended: when either pixel-density ratio is exactly zero,
blit_onto skips resampling, trimming and merging, leaves the store (and
hence the target grid and its bounds) bit-for-bit unchanged, and
returns None rather than the target. -/
theorem claim_C6_zero_scale_noop (st : Store) (s t : Image) (ps0 ps1 : ℚ)
    (hps : pixel_scale s t = Except.ok (ps0, ps1))
    (h : ps0 = 0 ∨ ps1 = 0) :
    blit_onto st s t = (st, Except.ok none) := by
  simp only [blit_onto, hps]
  rw [if_pos h]

/-- Witness for the amended claim C6. -/
theorem claim_C6_zero_scale_noop_witness :
    (pixel_scale sC6 tC6 = Except.ok (0, 1) ∧ ((0 : ℚ) = 0 ∨ (1 : ℚ) = 0)) ∧
    blit_onto stC6 sC6 tC6 = (stC6, Except.ok none) :=
  ⟨⟨of_decide_eq_true (by with_unfolding_all rfl), Or.inl rfl⟩,
   claim_C6_zero_scale_noop stC6 sC6 tC6 0 1
     (of_decide_eq_true (by with_unfolding_all rfl)) (Or.inl rfl)⟩

/-- Claim C3: evaluation of the trim phase at a non-square input.  The
target ymin bound cuts the source y range in half; the code computes
the row index from the width field (4), giving index 2 and a 6-row
result, where the row count the claim describes (height 8 times the
half fraction, index 4) would leave 4 rows. -/
theorem claim_C3_trim_evaluation :
    trim_phase tC3 (cC3, gC3) =
      Except.ok ({ cC3 with ymin := 4, height := 6, width := 4 }, List.drop 2 gC3) ∧
    gridRows (List.drop 2 gC3) = 6 :=
  of_decide_eq_true (by with_unfolding_all rfl)

/-- Claim C4 counterexample: immediately after the left trim at a
concrete input, the width field still holds 4 although the trimmed grid
has 2 columns: the fields are not refreshed after each individual edge
trim. -/
theorem claim_C4_counterexample :
    trim_xmin tC4 (cC4, gC4) = Except.ok ({ cC4 with xmin := 2 }, [[2, 3]]) ∧
    ({ cC4 with xmin := 2 } : Image).width ≠ gridCols [[2, 3]] :=
  of_decide_eq_true (by with_unfolding_all rfl)

/-- Claim C4 amended: none of the four individual edge trims touches
the width or height field (so every trim index formula uses the width
recorded when the resample refreshed the fields), and the single
refresh at the end of the trim phase sets both fields from the grid
actual shape. -/
theorem claim_C4_trim_field_refresh (t : Image) (s s1 : Image × Grid) :
    (trim_xmin t s = Except.ok s1 →
       s1.1.width = s.1.width ∧ s1.1.height = s.1.height) ∧
    (trim_xmax t s = Except.ok s1 →
       s1.1.width = s.1.width ∧ s1.1.height = s.1.height) ∧
    (trim_ymin t s = Except.ok s1 →
       s1.1.width = s.1.width ∧ s1.1.height = s.1.height) ∧
    (trim_ymax t s = Except.ok s1 →
       s1.1.width = s.1.width ∧ s1.1.height = s.1.height) ∧
    (trim_phase t s = Except.ok s1 →
       s1.1.width = gridCols s1.2 ∧ s1.1.height = gridRows s1.2) := by
  refine ⟨?_, ?_, ?_, ?_, ?_⟩
  · intro h
    unfold trim_xmin at h
    split_ifs at h <;> cases h <;> exact ⟨rfl, rfl⟩
  · intro h
    unfold trim_xmax at h
    split_ifs at h <;> cases h <;> exact ⟨rfl, rfl⟩
  · intro h
    unfold trim_ymin at h
    split_ifs at h <;> cases h <;> exact ⟨rfl, rfl⟩
  · intro h
    unfold trim_ymax at h
    split_ifs at h <;> cases h <;> exact ⟨rfl, rfl⟩
  · intro h
    unfold trim_phase at h
    repeat' split at h
    all_goals cases h
    all_goals exact ⟨rfl, rfl⟩

/-- Witness for the amended claim C4: the full trim phase at the C4
input ends with the fields refreshed from the final 1 by 2 grid. -/
theorem claim_C4_trim_field_refresh_witness :
    trim_phase tC4 (cC4, gC4) = Except.ok tpC4res ∧
    (tpC4res.1.width = gridCols tpC4res.2 ∧
      tpC4res.1.height = gridRows tpC4res.2) :=
  ⟨of_decide_eq_true (by with_unfolding_all rfl),
   (claim_C4_trim_field_refresh tC4 (cC4, gC4) tpC4res).2.2.2.2
     (of_decide_eq_true (by with_unfolding_all rfl))⟩

/-- Claim C2: inside blit_onto the resampled grid is stored right after
the orphan copy buffer; it is the zoom of the vertically flipped
(row-reversed) source grid, its value at output cell (j, i) is the
unsigned 16-bit cast of z_scale times the order-0 sample at row index
floor(j / rowScale) and column index floor(i / colScale), clamped into
the valid range, and every output value fits in 16 bits. -/
theorem claim_C2_resampled_grid (st : Store) (s t : Image) (ps0 ps1 : ℚ)
    (hps : pixel_scale s t = Except.ok (ps0, ps1))
    (h0 : ps0 ≠ 0) (h1 : ps1 ≠ 0)
    (ht : t.ref < st.length) :
    deref (blit_onto st s t).1 (st.length + 1) =
      zoomGrid (deref st s.ref).reverse (z_scale s t) ps0 ps1 ∧
    ∀ j i, j < zoomSize (gridRows (deref st s.ref).reverse) ps0 →
        i < zoomSize (gridCols (deref st s.ref).reverse) ps1 →
      ((deref (blit_onto st s t).1 (st.length + 1)).getD j []).getD i 0 =
        u16 (z_scale s t *
          ((((deref st s.ref).reverse.getD
              (min (gridRows (deref st s.ref).reverse - 1)
                (Int.floor ((j : ℚ) / ps0)).toNat) []).getD
            (min (gridCols (deref st s.ref).reverse - 1)
              (Int.floor ((i : ℚ) / ps1)).toNat) 0 : ℕ))) ∧
      ((deref (blit_onto st s t).1 (st.length + 1)).getD j []).getD i 0 < 65536 := by
  have hguard : ¬ (ps0 = 0 ∨ ps1 = 0) := by
    rintro (h | h)
    exacts [h0 h, h1 h]
  have hderef : deref (blit_onto st s t).1 (st.length + 1) =
      zoomGrid (deref st s.ref).reverse (z_scale s t) ps0 ps1 := by
    rcases htp : trim_phase t (copyHdr st s t ps0 ps1, zoomedOf st s t ps0 ps1)
      with e | ⟨c2, g2⟩
    · simp only [blit_onto, hps, hguard, if_false, blit_main, htp, deref]
      rw [List.getD_append_right _ _ _ _ (by omega)]
      have h2 : st.length + 1 - st.length = 1 := by omega
      rw [h2]
      rfl
    · simp only [blit_onto, hps, hguard, if_false, blit_main, htp, deref]
      rw [getD_set_ne _ _ _ _ _ (by omega),
        List.getD_append_right _ _ _ _ (by omega)]
      have h2 : st.length + 1 - st.length = 1 := by omega
      rw [h2]
      rfl
  refine ⟨hderef, ?_⟩
  intro j i hj hi
  rw [hderef]
  constructor
  · unfold zoomGrid
    rw [getD_range_map _ _ _ _ hj, getD_range_map _ _ _ _ hi]
    rfl
  · unfold zoomGrid
    rw [getD_range_map _ _ _ _ hj, getD_range_map _ _ _ _ hi]
    unfold u16
    have h65 : (0 : ℤ) < 65536 := by norm_num
    have hlt := Int.emod_lt_of_pos
      (pyint (z_scale s t *
        ((((deref st s.ref).reverse.getD
            (zoomIdx (gridRows (deref st s.ref).reverse) j ps0) []).getD
          (zoomIdx (gridCols (deref st s.ref).reverse) i ps1) 0 : ℕ)))) h65
    omega

/-- Witness for claim C2. -/
theorem claim_C2_resampled_grid_witness :
    (pixel_scale sC2w tC2w = Except.ok (1, 1) ∧ (1 : ℚ) ≠ 0 ∧
      tC2w.ref < stC2w.length) ∧
    (deref (blit_onto stC2w sC2w tC2w).1 (stC2w.length + 1) =
      zoomGrid (deref stC2w sC2w.ref).reverse (z_scale sC2w tC2w) 1 1 ∧
    ∀ j i, j < zoomSize (gridRows (deref stC2w sC2w.ref).reverse) 1 →
        i < zoomSize (gridCols (deref stC2w sC2w.ref).reverse) 1 →
      ((deref (blit_onto stC2w sC2w tC2w).1 (stC2w.length + 1)).getD j []).getD i 0 =
        u16 (z_scale sC2w tC2w *
          ((((deref stC2w sC2w.ref).reverse.getD
              (min (gridRows (deref stC2w sC2w.ref).reverse - 1)
                (Int.floor ((j : ℚ) / 1)).toNat) []).getD
            (min (gridCols (deref stC2w sC2w.ref).reverse - 1)
              (Int.floor ((i : ℚ) / 1)).toNat) 0 : ℕ))) ∧
      ((deref (blit_onto stC2w sC2w tC2w).1 (stC2w.length + 1)).getD j []).getD i 0 < 65536) :=
  ⟨⟨of_decide_eq_true (by with_unfolding_all rfl),
    of_decide_eq_true (by with_unfolding_all rfl),
    of_decide_eq_true (by with_unfolding_all rfl)⟩,
   claim_C2_resampled_grid stC2w sC2w tC2w 1 1
     (of_decide_eq_true (by with_unfolding_all rfl))
     (of_decide_eq_true (by with_unfolding_all rfl))
     (of_decide_eq_true (by with_unfolding_all rfl))
     (of_decide_eq_true (by with_unfolding_all rfl))⟩

/-- Claim C8: the shape invariant grid.rows == height and
grid.cols == width holds after blank construction, construction from a
Region, and is preserved by copy, by the pixels export and, for the
target, by blit_onto. -/
theorem claim_C8_shape_invariant :
    (∀ st w h, InvShape (Image.init st w h).1 (Image.init st w h).2) ∧
    (∀ st r m, InvShape (Image.from_region st r m).1 (Image.from_region st r m).2) ∧
    (∀ st (s : Image), s.ref < st.length → InvShape st s →
       InvShape (Image.copy st s).1 (Image.copy st s).2) ∧
    (∀ st (s : Image) f, InvShape st s →
       InvShape (Image.pixels st s f).1 (Image.pixels st s f).2.1) ∧
    (∀ st (s t : Image), t.ref < st.length → InvShape st t →
       InvShape (blit_onto st s t).1 t) := by
  have hinit : ∀ st w h, InvShape (Image.init st w h).1 (Image.init st w h).2 := by
    intro st w h
    constructor
    · simp only [Image.init, deref, gridRows]
      rw [List.getD_append_right _ _ _ _ (by omega)]
      simp [zerosGrid]
    · intro r hr
      simp only [Image.init, deref] at hr
      rw [List.getD_append_right _ _ _ _ (by omega)] at hr
      simp only [Nat.sub_self] at hr
      have hr' : r ∈ List.replicate h (List.replicate w 0) := by
        simpa [zerosGrid] using hr
      have hrep := List.eq_of_mem_replicate hr'
      simp [Image.init, hrep]
  refine ⟨hinit, ?_, ?_, ?_, ?_⟩
  · intro st r m
    exact hinit st r.ni r.nj
  · intro st s hs hinv
    constructor
    · simp only [Image.copy, Image.init, deref]
      rw [List.getD_append _ _ _ _ hs]
      exact hinv.1
    · intro row hrow
      simp only [Image.copy, Image.init, deref] at hrow
      rw [List.getD_append _ _ _ _ hs] at hrow
      exact hinv.2 row hrow
  · intro st s f hinv
    exact hinv
  · intro st s t ht hinv
    rcases hp : pixel_scale s t with e | ⟨ps0, ps1⟩
    · simpa only [blit_onto, hp] using hinv
    · simp only [blit_onto, hp]
      by_cases hg : ps0 = 0 ∨ ps1 = 0
      · rw [if_pos hg]
        exact hinv
      · rw [if_neg hg]
        rcases htp : trim_phase t (copyHdr st s t ps0 ps1, zoomedOf st s t ps0 ps1)
          with e | ⟨c2, g2⟩
        · simp only [blit_main, htp]
          constructor
          · simp only [deref]
            rw [List.getD_append _ _ _ _ ht]
            exact hinv.1
          · intro row hrow
            simp only [deref] at hrow
            rw [List.getD_append _ _ _ _ ht] at hrow
            exact hinv.2 row hrow
        · simp only [blit_main, htp]
          have hlen : t.ref < (st ++ [zerosGrid s.width s.height,
              zoomedOf st s t ps0 ps1]).length := by
            rw [List.length_append]
            omega
          constructor
          · simp only [deref, gridRows]
            rw [getD_set_self _ _ _ _ hlen, mergeGrid_length]
            exact hinv.1
          · intro row hrow
            simp only [deref] at hrow
            rw [getD_set_self _ _ _ _ hlen] at hrow
            unfold mergeGrid overlay at hrow
            rcases List.mem_append.mp hrow with hrow | hrow
            · rcases List.mem_append.mp hrow with hrow | hrow
              · exact hinv.2 row (List.take_subset _ _ hrow)
              · obtain ⟨srow, _, trow, htrow, rfl⟩ := mem_zipWith hrow
                rw [mergeRow_length]
                exact hinv.2 trow (List.drop_subset _ _ htrow)
            · exact hinv.2 row (List.drop_subset _ _ hrow)

/-- Witness for claim C8: the invariant is checked through a concrete
copy and a concrete blit. -/
theorem claim_C8_shape_invariant_witness :
    (tC1w.ref < stC1w.length ∧ InvShape stC1w tC1w) ∧
    InvShape (Image.copy stC1w tC1w).1 (Image.copy stC1w tC1w).2 ∧
    InvShape (blit_onto stC1w sC1w tC1w).1 tC1w :=
  ⟨⟨of_decide_eq_true (by with_unfolding_all rfl),
    of_decide_eq_true (by with_unfolding_all rfl)⟩,
   claim_C8_shape_invariant.2.2.1 stC1w tC1w
     (of_decide_eq_true (by with_unfolding_all rfl))
     (of_decide_eq_true (by with_unfolding_all rfl)),
   claim_C8_shape_invariant.2.2.2.2 stC1w sC1w tC1w
     (of_decide_eq_true (by with_unfolding_all rfl))
     (of_decide_eq_true (by with_unfolding_all rfl))⟩

/-- Claim C9: copy returns a tile with the same width, height and six
bounds whose grid reference aliases the original buffer; updating a
bound of the copy changes only the copy header and keeps the shared
reference; a write through the shared reference is visible in the
original view; and once the copy reference is reassigned to a freshly
allocated grid, writes through the copy no longer change the original
view: the aliasing boundary is exactly the grid reassignment. -/
theorem claim_C9_copy_aliasing (st : Store) (s : Image) (hs : s.ref < st.length) :
    (Image.copy st s).2.width = s.width ∧
    (Image.copy st s).2.height = s.height ∧
    (Image.copy st s).2.xmin = s.xmin ∧ (Image.copy st s).2.xmax = s.xmax ∧
    (Image.copy st s).2.ymin = s.ymin ∧ (Image.copy st s).2.ymax = s.ymax ∧
    (Image.copy st s).2.zmin = s.zmin ∧ (Image.copy st s).2.zmax = s.zmax ∧
    (Image.copy st s).2.ref = s.ref ∧
    deref (Image.copy st s).1 (Image.copy st s).2.ref = deref st s.ref ∧
    (∀ q : ℚ, ({ (Image.copy st s).2 with xmin := q } : Image).xmin = q ∧
       ({ (Image.copy st s).2 with xmin := q } : Image).ref = s.ref) ∧
    (∀ j i v, deref (writeCell (Image.copy st s).1 (Image.copy st s).2.ref j i v) s.ref =
       (deref (Image.copy st s).1 s.ref).set j
         (((deref (Image.copy st s).1 s.ref).getD j []).set i v)) ∧
    (∀ (g : Grid) j i v,
       deref (writeCell ((Image.copy st s).1 ++ [g]) (Image.copy st s).1.length j i v)
           s.ref = deref st s.ref) := by
  have hderef : deref (Image.copy st s).1 s.ref = deref st s.ref := by
    simp only [Image.copy, Image.init, deref]
    rw [List.getD_append _ _ _ _ hs]
  have hslen : s.ref < (Image.copy st s).1.length := by
    simp only [Image.copy, Image.init, List.length_append]
    omega
  refine ⟨rfl, rfl, rfl, rfl, rfl, rfl, rfl, rfl, rfl, hderef,
    fun q => ⟨rfl, rfl⟩, ?_, ?_⟩
  · intro j i v
    show deref (writeCell (Image.copy st s).1 s.ref j i v) s.ref = _
    unfold writeCell deref
    rw [getD_set_self _ _ _ _ hslen]
  · intro g j i v
    unfold writeCell deref
    rw [getD_set_ne _ _ _ _ _ (by omega), List.getD_append _ _ _ _ hslen]
    exact hderef

/-- Witness for claim C9. -/
theorem claim_C9_copy_aliasing_witness :
    sC9w.ref < stC9w.length ∧
    ((Image.copy stC9w sC9w).2.width = sC9w.width ∧
    (Image.copy stC9w sC9w).2.height = sC9w.height ∧
    (Image.copy stC9w sC9w).2.xmin = sC9w.xmin ∧
    (Image.copy stC9w sC9w).2.xmax = sC9w.xmax ∧
    (Image.copy stC9w sC9w).2.ymin = sC9w.ymin ∧
    (Image.copy stC9w sC9w).2.ymax = sC9w.ymax ∧
    (Image.copy stC9w sC9w).2.zmin = sC9w.zmin ∧
    (Image.copy stC9w sC9w).2.zmax = sC9w.zmax ∧
    (Image.copy stC9w sC9w).2.ref = sC9w.ref ∧
    deref (Image.copy stC9w sC9w).1 (Image.copy stC9w sC9w).2.ref =
      deref stC9w sC9w.ref ∧
    (∀ q : ℚ, ({ (Image.copy stC9w sC9w).2 with xmin := q } : Image).xmin = q ∧
       ({ (Image.copy stC9w sC9w).2 with xmin := q } : Image).ref = sC9w.ref) ∧
    (∀ j i v,
       deref (writeCell (Image.copy stC9w sC9w).1 (Image.copy stC9w sC9w).2.ref j i v)
           sC9w.ref =
         (deref (Image.copy stC9w sC9w).1 sC9w.ref).set j
           (((deref (Image.copy stC9w sC9w).1 sC9w.ref).getD j []).set i v)) ∧
    (∀ (g : Grid) j i v,
       deref (writeCell ((Image.copy stC9w sC9w).1 ++ [g])
           (Image.copy stC9w sC9w).1.length j i v) sC9w.ref =
         deref stC9w sC9w.ref)) :=
  ⟨of_decide_eq_true (by with_unfolding_all rfl),
   claim_C9_copy_aliasing stC9w sC9w (of_decide_eq_true (by with_unfolding_all rfl))⟩

/-- Claim C10 counterexample: when the source grid buffer aliases the
target (here the same tile is blitted onto itself), the merge writes
are visible through the source: its grid contents change from
[[0], [5]] to [[5], [5]]. -/
theorem claim_C10_counterexample :
    deref stC10 tC10.ref = [[0], [5]] ∧
    deref (blit_onto stC10 tC10 tC10).1 tC10.ref = [[5], [5]] ∧
    deref (blit_onto stC10 tC10 tC10).1 tC10.ref ≠ deref stC10 tC10.ref :=
  of_decide_eq_true (by with_unfolding_all rfl)

/-- Claim C10 amended: provided the source grid buffer is distinct from
the target one, blit_onto never writes the source buffer: the view
through the source reference is identical before and after the call
(the header fields are values and are never reassigned by blit_onto,
all transformations act on the shallow copy whose grid reference is
reassigned before any mutation). -/
theorem claim_C10_source_unchanged (st : Store) (s t : Image)
    (hs : s.ref < st.length) (hne : s.ref ≠ t.ref) :
    deref (blit_onto st s t).1 s.ref = deref st s.ref := by
  rcases hp : pixel_scale s t with e | ⟨ps0, ps1⟩
  · simp only [blit_onto, hp]
  · simp only [blit_onto, hp]
    by_cases hg : ps0 = 0 ∨ ps1 = 0
    · rw [if_pos hg]
    · rw [if_neg hg]
      rcases htp : trim_phase t (copyHdr st s t ps0 ps1, zoomedOf st s t ps0 ps1)
        with e | ⟨c2, g2⟩
      · simp only [blit_main, htp, deref]
        rw [List.getD_append _ _ _ _ hs]
      · simp only [blit_main, htp, deref]
        rw [getD_set_ne _ _ _ _ _ (fun h => hne (h.symm)),
          List.getD_append _ _ _ _ hs]

/-- Witness for the amended claim C10. -/
theorem claim_C10_source_unchanged_witness :
    (sC10w.ref < stC10w.length ∧ sC10w.ref ≠ tC10w.ref) ∧
    deref (blit_onto stC10w sC10w tC10w).1 sC10w.ref = deref stC10w sC10w.ref :=
  ⟨⟨of_decide_eq_true (by with_unfolding_all rfl),
    of_decide_eq_true (by with_unfolding_all rfl)⟩,
   claim_C10_source_unchanged stC10w sC10w tC10w
     (of_decide_eq_true (by with_unfolding_all rfl))
     (of_decide_eq_true (by with_unfolding_all rfl))⟩

end Fab
